import Mathlib

/-!
Verification development for the gym-bot repository.

The database layer (src/db.py) is embedded as pure functions over an explicit
state `GDB` mirroring the SQL schema in `SCHEMA_SQL`: tables `classes`,
`sessions`, `bookings` become lists of structures, the `BIGSERIAL` booking key
becomes an explicit `next_booking_id` counter, and each SQL statement of a
Python function becomes the corresponding list operation.  The agent layer
(src/agent.py) is embedded with the language-model HTTP call abstracted as an
oracle `List CtxMsg → Except UpErr ModelOut`; an `.error` result of the oracle
models `r.raise_for_status()` (or JSON decoding) raising, which the Python
code does not catch.  Wall-clock timestamps (`time.time()`) are passed in as
explicit parameters.
-/

/-- Booking status, mirroring the SQL enum
`booking_status AS ENUM ('confirmed','waitlist','canceled')`. -/
inductive BookingStatus where
  | confirmed
  | waitlist
  | canceled
deriving DecidableEq, Repr

/-- A calendar date (SQL `DATE`, Python `datetime.date`). -/
structure GDate where
  year : Nat
  month : Nat
  day : Nat
deriving DecidableEq, Repr

/-- Row of the `classes` table: `id, title, coach, capacity` (capacity is SQL `INT`). -/
structure GClass where
  id : Nat
  title : String
  coach : Option String
  capacity : Int
deriving DecidableEq, Repr

/-- Row of the `sessions` table.  `start_time`/`end_time` (SQL `TIME`) are
minutes since midnight; the `%H:%M` presentation formatting of db.py is not
modelled. -/
structure GSession where
  id : Nat
  class_id : Nat
  date : GDate
  start_time : Nat
  end_time : Nat
deriving DecidableEq, Repr

/-- Row of the `bookings` table (`created_at` omitted; no claim mentions it). -/
structure GBooking where
  id : Nat
  session_id : Nat
  member_id : Nat
  status : BookingStatus
deriving DecidableEq, Repr

/-- Database state: the three tables relevant to the claims plus the
`BIGSERIAL` counter feeding fresh booking ids.  The `members` table carries no
logic used by any claim and is omitted. -/
structure GDB where
  classes : List GClass
  sessions : List GSession
  bookings : List GBooking
  next_booking_id : Nat
deriving DecidableEq, Repr

/-- Number of rows of a booking list with the given session and status
`'confirmed'`: the correlated subquery
`SELECT count(*) FROM bookings b WHERE b.session_id = s.id AND b.status='confirmed'`. -/
def countConfirmed (l : List GBooking) (sid : Nat) : Nat :=
  (l.filter (fun b => b.session_id == sid && b.status == BookingStatus.confirmed)).length

/-- All booking rows of one session. -/
def countSession (l : List GBooking) (sid : Nat) : Nat :=
  (l.filter (fun b => b.session_id == sid)).length

/-- Booking rows of one session with status `'waitlist'`. -/
def countWaitlist (l : List GBooking) (sid : Nat) : Nat :=
  (l.filter (fun b => b.session_id == sid && b.status == BookingStatus.waitlist)).length

/-- Confirmed-booking count of a session in a database state. -/
def confirmedCount (db : GDB) (sid : Nat) : Nat :=
  countConfirmed db.bookings sid

/-- The unique-key predicate of `UNIQUE (session_id, member_id)` on `bookings`. -/
def bookingMatches (sid mid : Nat) (b : GBooking) : Bool :=
  b.session_id == sid && b.member_id == mid

/-- Error raised by `book_class`: `raise ValueError("Session not found")`. -/
inductive BookErr where
  | notFound
deriving DecidableEq, Repr

/-- The read phase of `book_class` in db.py: the `remain_sql` SELECT joining
the session row with its class row and computing
`capacity - COALESCE(count of confirmed bookings, 0) AS remaining`.
Returns `none` when the session id does not resolve (no row). -/
def book_read (db : GDB) (sid : Nat) : Option (GSession × GClass × Int) :=
  match db.sessions.find? (fun s => s.id == sid) with
  | none => none
  | some s =>
    match db.classes.find? (fun c => c.id == s.class_id) with
    | none => none
    | some c => some (s, c, c.capacity - (confirmedCount db sid : Int))

/-- The write phase of `book_class` in db.py: the
`INSERT INTO bookings ... ON CONFLICT (session_id, member_id) DO UPDATE SET
status=EXCLUDED.status RETURNING id` upsert.  On conflict the existing row
keeps its id and gets the freshly computed status; otherwise a new row with
the next serial id is inserted. -/
def book_write (db : GDB) (sid mid : Nat) (st : BookingStatus) : Nat × GDB :=
  match db.bookings.find? (bookingMatches sid mid) with
  | some b =>
    (b.id,
     { db with
        bookings := db.bookings.map
          (fun b0 => if bookingMatches sid mid b0 then { b0 with status := st } else b0) })
  | none =>
    (db.next_booking_id,
     { db with
        bookings := db.bookings ++ [⟨db.next_booking_id, sid, mid, st⟩],
        next_booking_id := db.next_booking_id + 1 })

/-- Result dict returned by `book_class` (times as minutes, date unformatted). -/
structure BookingResult where
  booking_id : Nat
  status : BookingStatus
  title : String
  date : GDate
  start_time : Nat
  end_time : Nat
  coach : Option String
  session_id : Nat
  member_id : Nat
deriving DecidableEq, Repr

/-- `book_class(session_id, member_id)` from db.py: read the remaining-seat
count, derive `status = 'confirmed' if remaining > 0 else 'waitlist'`, then
upsert the booking row.  The two phases are separate SQL statements on one
connection with no row lock or serializable isolation between concurrent
callers; `book_read`/`book_write` name them so interleavings can be stated. -/
def book_class (db : GDB) (sid mid : Nat) : Except BookErr (BookingResult × GDB) :=
  match book_read db sid with
  | none => .error .notFound
  | some (s, c, remaining) =>
    let status := if 0 < remaining then BookingStatus.confirmed else BookingStatus.waitlist
    let r := book_write db sid mid status
    .ok ({ booking_id := r.1, status := status, title := c.title, date := s.date,
           start_time := s.start_time, end_time := s.end_time, coach := c.coach,
           session_id := sid, member_id := mid }, r.2)

/-- One step of a sequence of booking calls: on success take the new state,
on error keep the state (the exception leaves the database unchanged). -/
def bookStep (sid : Nat) (d : GDB) (m : Nat) : GDB :=
  match book_class d sid m with
  | .ok (_, d') => d'
  | .error _ => d

/-- Sequential execution of `book_class` for each member in turn. -/
def bookAll (db : GDB) (sid : Nat) (ms : List Nat) : GDB :=
  ms.foldl (bookStep sid) db

/-! ### Date resolution (`_to_date_from_when` in db.py) -/

/-- Gregorian leap-year rule (as used by `datetime.date`). -/
def isLeapYear (y : Nat) : Bool :=
  y % 4 == 0 && (y % 100 != 0 || y % 400 == 0)

/-- Number of days of a month (as used by `datetime.date`). -/
def daysInMonth (y m : Nat) : Nat :=
  if m = 2 then (if isLeapYear y then 29 else 28)
  else if m = 4 ∨ m = 6 ∨ m = 9 ∨ m = 11 then 30
  else 31

/-- `today + dt.timedelta(days=1)`: Gregorian successor of a date. -/
def nextDay (d : GDate) : GDate :=
  if d.day < daysInMonth d.year d.month then ⟨d.year, d.month, d.day + 1⟩
  else if d.month < 12 then ⟨d.year, d.month + 1, 1⟩
  else ⟨d.year + 1, 1, 1⟩

/-- A representable `datetime.date`: month and day in range (year range of
Python, 1–9999, is not constrained here beyond the parser's own check). -/
def GDate.valid (d : GDate) : Prop :=
  1 ≤ d.month ∧ d.month ≤ 12 ∧ 1 ≤ d.day ∧ d.day ≤ daysInMonth d.year d.month

instance (d : GDate) : Decidable d.valid := by
  unfold GDate.valid; exact inferInstance

/-- Python substring test `needle in hay` on character lists. -/
def hasSub (needle : List Char) : List Char → Bool
  | [] => needle.isEmpty
  | c :: t => needle.isPrefixOf (c :: t) || hasSub needle t

/-- ASCII digit test. -/
def digit? (c : Char) : Bool := '0' ≤ c && c ≤ '9'

/-- Numeric value of an ASCII digit. -/
def digitVal (c : Char) : Nat := c.toNat - '0'.toNat

/-- Modelled from the Python standard library: `datetime.date.fromisoformat`
restricted to the canonical `YYYY-MM-DD` form, validating year ≥ 1, month and
day ranges; any other input raises in Python, modelled as `none`. -/
def parseISO (w : List Char) : Option GDate :=
  match w with
  | [y1, y2, y3, y4, s1, m1, m2, s2, d1, d2] =>
    if s1 == '-' && s2 == '-' && digit? y1 && digit? y2 && digit? y3 && digit? y4 &&
       digit? m1 && digit? m2 && digit? d1 && digit? d2 then
      let y := ((digitVal y1 * 10 + digitVal y2) * 10 + digitVal y3) * 10 + digitVal y4
      let mo := digitVal m1 * 10 + digitVal m2
      let da := digitVal d1 * 10 + digitVal d2
      if 1 ≤ y ∧ 1 ≤ mo ∧ mo ≤ 12 ∧ 1 ≤ da ∧ da ≤ daysInMonth y mo then
        some ⟨y, mo, da⟩
      else none
    else none
  | _ => none

/-- Lowercased copy of a string (`when.lower()`; the keywords are ASCII). -/
def lowerStr (s : List Char) : List Char := s.map Char.toLower

/-- `_to_date_from_when(when)` from db.py, with `dt.date.today()` passed in as
`today`.  `when = none` models both `None` and the falsy empty string (an
empty string also reaches the final default and yields today). -/
def to_date_from_when (today : GDate) (when : Option (List Char)) : GDate :=
  match when with
  | none => today
  | some s =>
    let w := lowerStr s
    if hasSub "morgen".toList w || hasSub "tomorrow".toList w then nextDay today
    else if hasSub "heute".toList w || hasSub "today".toList w then today
    else
      match parseISO w with
      | some d => d
      | none => today

/-! ### Schedule query (`get_schedule` in db.py) -/

/-- One row of the `get_schedule` result (date and times unformatted). -/
structure SessionView where
  session_id : Nat
  title : String
  coach : Option String
  capacity : Int
  date : GDate
  start_time : Nat
  end_time : Nat
  remaining : Int
deriving DecidableEq, Repr

/-- Construction of one result row of the schedule SELECT. -/
def mkSessionView (db : GDB) (s : GSession) (c : GClass) : SessionView :=
  ⟨s.id, c.title, c.coach, c.capacity, s.date, s.start_time, s.end_time,
   c.capacity - (confirmedCount db s.id : Int)⟩

/-- The unsorted row set of the schedule SELECT: sessions of the requested
date joined with their class (`JOIN classes c ON c.id = s.class_id`; class
ids are a primary key, so the join partner is looked up with `find?`). -/
def scheduleRows (db : GDB) (d : GDate) : List SessionView :=
  (db.sessions.filter (fun s => s.date == d)).filterMap
    (fun s => (db.classes.find? (fun c => c.id == s.class_id)).map
      (fun c => mkSessionView db s c))

/-- The `ORDER BY s.start_time` ordering on result rows. -/
def viewLe (a b : SessionView) : Prop := a.start_time ≤ b.start_time

instance : DecidableRel viewLe := fun a b => Nat.decLe a.start_time b.start_time

instance : IsTotal SessionView viewLe := ⟨fun a b => Nat.le_total a.start_time b.start_time⟩

instance : IsTrans SessionView viewLe := ⟨fun _ _ _ hab hbc => Nat.le_trans hab hbc⟩

/-- `get_schedule(when)` from db.py: resolve the date, run the read-only
SELECT with `ORDER BY s.start_time`, and return the rows.  The state is
returned alongside to record that the operation is a pure read. -/
def get_schedule (db : GDB) (today : GDate) (when : Option (List Char)) :
    List SessionView × GDB :=
  (List.insertionSort viewLe (scheduleRows db (to_date_from_when today when)), db)

/-! ### Conversation store and agent (src/agent.py) -/

/-- Python slice `l[-k:]` — the last `k` elements for `k ≥ 1`, the whole list
for `k = 0` (since `l[-0:]` is `l[0:]`). -/
def pyTail (k : Nat) (l : List α) : List α :=
  if k = 0 then l else l.drop (l.length - k)

/-- Python `x or default` on an optional string: `None` and the empty string
are falsy. -/
def pyOr (o : Option String) (d : String) : String :=
  match o with
  | some s => if s = "" then d else s
  | none => d

/-- One entry of a member's stored history: `{"role": .., "content": .., "ts": ..}`. -/
structure HEntry where
  role : String
  content : String
  ts : Nat
deriving DecidableEq, Repr

/-- The Redis-backed `Memory` store, keyed by user id.  The TTL argument of
the Redis writes (time-based expiry) is not modelled; no claim depends on it.
A `some` profile models a present, non-empty profile dict (an absent or empty
dict is falsy in `if profile:`). -/
structure MemSt where
  hist : String → List HEntry
  profile : String → Option String

/-- `Memory.get_history`. -/
def get_history (mem : MemSt) (uid : String) : List HEntry := mem.hist uid

/-- `Memory.append_history`: read the list, append the new entry, keep the
last `keep_last` entries (`hist[-keep_last:]`), write back. -/
def append_history (mem : MemSt) (uid role content : String) (ts : Nat)
    (keep_last : Nat) : MemSt :=
  { mem with
      hist := fun u =>
        if u = uid then pyTail keep_last (mem.hist uid ++ [⟨role, content, ts⟩])
        else mem.hist u }

/-- The store with no history and no profiles. -/
def memEmpty : MemSt := ⟨fun _ => [], fun _ => none⟩

/-- Capability errors named by the spec's error taxonomy.  Modelled from the
spec: the code of src/agent.py defines no such error values; the type exists
so that their absence from the code's behaviour can be stated. -/
inductive CapErr where
  | unknownCapability
  | invalidArguments
deriving DecidableEq, Repr

/-- One row of the fixed demo schedule returned by `tool_get_schedule`. -/
structure DemoRow where
  time : String
  title : String
  remaining : Nat
  waitlist : Bool
deriving DecidableEq, Repr

/-- The hard-coded demo rows of `tool_get_schedule`. -/
def demoRows : List DemoRow :=
  [⟨"17:30", "BodyPump", 3, false⟩, ⟨"18:30", "Yoga", 2, false⟩, ⟨"19:30", "Hyrox", 0, true⟩]

/-- The JSON payload a tool handler produces (the dict later serialized with
`json.dumps`).  `emptyObj` is the `{}` default used when no handler is found.
`err` is the spec-modelled error payload (see `CapErr`): no code path of
src/agent.py constructs it.  The time-derived `booking_id` string of
`tool_book_class` is not modelled (no claim observes it). -/
inductive ToolResult where
  | emptyObj
  | scheduleDemo (whenArg : String) (classes : List DemoRow)
  | bookDemo (ok : Bool) (course time : String) (userId : Option String)
  | handoverDemo (ok : Bool) (note routedTo : String)
  | err (e : CapErr)
deriving DecidableEq, Repr

/-- Arguments of a tool call, the parsed `arguments` JSON object
(flat string-to-string mapping, as declared by `tools_schema_for_openai`). -/
def ToolArgs := List (String × String)

/-- Python `args.get(k)`. -/
def argGet (args : ToolArgs) (k : String) : Option String :=
  (List.lookup k args)

/-- `tool_get_schedule`: `when = (args.get("when") or "today").lower()`,
returning the fixed demo rows. -/
def tool_get_schedule (args : ToolArgs) : ToolResult :=
  .scheduleDemo (pyOr (argGet args "when") "today").toLower demoRows

/-- `tool_book_class`: defaulted course and time, pass-through user id,
`{"ok": True, ...}`. -/
def tool_book_class (args : ToolArgs) : ToolResult :=
  .bookDemo true (pyOr (argGet args "course") "Yoga") (pyOr (argGet args "time") "18:30")
    (argGet args "user_id")

/-- `tool_handover`: `note = args.get("note") or ""`, routed to a human. -/
def tool_handover (args : ToolArgs) : ToolResult :=
  .handoverDemo true (pyOr (argGet args "note") "") "human"

/-- `TOOLS.get(name, {}).get("fn")`: handler lookup in the registry dict. -/
def TOOLS_get (name : String) : Option (ToolArgs → ToolResult) :=
  if name = "get_schedule" then some tool_get_schedule
  else if name = "book_class" then some tool_book_class
  else if name = "handover" then some tool_handover
  else none

/-- The dispatch performed inside the loop body of `run_agent`:
`tool_result = {}` and `if fn: tool_result = await fn(args)` — an
unregistered name silently keeps the empty dict. -/
def exec_tool (name : String) (args : ToolArgs) : ToolResult :=
  match TOOLS_get name with
  | some f => f args
  | none => .emptyObj

/-- One requested tool call of the model output (arguments already parsed;
a malformed `arguments` JSON raises in `json.loads` at the same place the
HTTP error would, and is folded into the oracle's error case). -/
structure ToolCall where
  id : String
  name : String
  args : ToolArgs

/-- The model message of one chat-completion response:
`out = r.json()["choices"][0]["message"]`. -/
structure ModelOut where
  tool_calls : List ToolCall
  content : Option String

/-- Roles of messages in the in-flight model context. -/
inductive CtxRole where
  | system
  | user
  | assistant
  | tool
deriving DecidableEq, Repr

/-- One message of the in-flight context `msgs`: a plain role/content pair,
the appended assistant message carrying tool calls (`msgs.append(out)`), or a
tool-result message (`role: "tool"` with the serialized handler result). -/
inductive CtxMsg where
  | text (role : CtxRole) (content : String)
  | assistantCall (out : ModelOut)
  | toolReply (tcId name : String) (result : ToolResult)

/-- Role of a context message. -/
def ctxRole : CtxMsg → CtxRole
  | .text r _ => r
  | .assistantCall _ => .assistant
  | .toolReply _ _ _ => .tool

/-- Failure of the chat-completion call: a non-2xx status
(`r.raise_for_status()`) or undecodable response body.  The Python code does
not catch it, so it propagates out of `run_agent`. -/
inductive UpErr where
  | upstream
deriving DecidableEq, Repr

/-- The language-model collaborator: what `POST /v1/chat/completions` answers
on a given context. -/
def Oracle := List CtxMsg → Except UpErr ModelOut

/-- The fixed system instruction of src/agent.py (`SYSTEM_PROMPT`; quotation
marks inside the German text elided). -/
def SYSTEM_PROMPT : String :=
  "Du bist der Studio-Assistent eines Fitnessstudios. " ++
  "Ziele: Hilf beim Probetraining, Kursplan, Buchungen, Öffnungszeiten. " ++
  "Wenn eine Aktion nötig ist, rufe ein passendes TOOL auf. " ++
  "Sei kurz und konkret. Falls unklar, frag nach. " ++
  "Wenn menschliche Hilfe nötig: nutze das handover-Tool. " ++
  "Gib NUR die End-Antwort an den Nutzer zurück, außer du musst ein Tool aufrufen."

/-- The fixed fallback reply used when the loop exhausts its three rounds. -/
def fallback_reply : String :=
  "Ich habe das nicht eindeutig verstanden. Möchtest du Kursplan sehen oder ein Probetraining buchen?"

/-- Context assembly of `run_agent`: system prompt, optional profile system
message, then the last six history entries mapped to user/assistant messages
(`"user" if m["role"]=="user" else "assistant"`). -/
def buildCtx (mem : MemSt) (uid : String) : List CtxMsg :=
  [.text .system SYSTEM_PROMPT] ++
  (match mem.profile uid with
   | some p => [.text .system ("PROFILE: " ++ p)]
   | none => []) ++
  (pyTail 6 (mem.hist uid)).map
    (fun e => .text (if e.role = "user" then .user else .assistant) e.content)

/-- The `for _ in range(3)` loop body of `run_agent`, with the remaining
iteration count as fuel.  Fuel exhausted: append and return the fixed
fallback.  Oracle error: the exception propagates (the store keeps whatever
was already appended).  A response with tool calls: execute the first call's
tool, append the assistant message and the tool message, continue.  A
response without tool calls: `final = out.get("content") or ""` is appended
and returned. -/
def agent_loop (oracle : Oracle) (uid : String) (ts : Nat) :
    Nat → List CtxMsg → MemSt → Except UpErr String × MemSt
  | 0, _, mem =>
    (.ok fallback_reply, append_history mem uid "assistant" fallback_reply ts 10)
  | n + 1, msgs, mem =>
    match oracle msgs with
    | .error e => (.error e, mem)
    | .ok out =>
      match out.tool_calls with
      | tc :: _ =>
        let tool_result := exec_tool tc.name tc.args
        agent_loop oracle uid ts n
          (msgs ++ [.assistantCall out, .toolReply tc.id tc.name tool_result]) mem
      | [] =>
        let final := match out.content with | some sVal => sVal | none => ""
        (.ok final, append_history mem uid "assistant" final ts 10)

/-- `run_agent(user_id, user_text, memory)` from src/agent.py: append the
user message, build the context, run at most three model/tool rounds.  The
first component is the returned reply or the propagated exception; the second
is the state of the conversation store afterwards. -/
def run_agent (oracle : Oracle) (uid user_text : String) (mem : MemSt) (ts : Nat) :
    Except UpErr String × MemSt :=
  let mem1 := append_history mem uid "user" user_text ts 10
  agent_loop oracle uid ts 3 (buildCtx mem1 uid) mem1

/-! ### Helper lemmas about the booking engine -/

lemma find?_append_none {α : Type _} (p : α → Bool) {l₁ : List α} (l₂ : List α)
    (h : l₁.find? p = none) : (l₁ ++ l₂).find? p = l₂.find? p := by
  induction l₁ with
  | nil => simp
  | cons a t ih =>
    rw [List.cons_append]
    cases hpa : p a with
    | true => rw [List.find?_cons_of_pos _ hpa] at h; exact absurd h (by simp)
    | false =>
      rw [List.find?_cons_of_neg _ (by simp [hpa])] at h
      rw [List.find?_cons_of_neg _ (by simp [hpa])]
      exact ih h

lemma countConfirmed_snoc (l : List GBooking) (b : GBooking) (sid : Nat) :
    countConfirmed (l ++ [b]) sid =
      countConfirmed l sid +
        (if b.session_id == sid && b.status == BookingStatus.confirmed then 1 else 0) := by
  simp only [countConfirmed, List.filter_append, List.length_append]
  congr 1
  by_cases h : (b.session_id == sid && b.status == BookingStatus.confirmed) = true
  · simp [List.filter, h]
  · simp only [Bool.not_eq_true] at h
    simp [List.filter, h]

lemma countSession_snoc (l : List GBooking) (b : GBooking) (sid : Nat) :
    countSession (l ++ [b]) sid =
      countSession l sid + (if b.session_id == sid then 1 else 0) := by
  simp only [countSession, List.filter_append, List.length_append]
  congr 1
  by_cases h : (b.session_id == sid) = true
  · simp [List.filter, h]
  · simp only [Bool.not_eq_true] at h
    simp [List.filter, h]

lemma countWaitlist_snoc (l : List GBooking) (b : GBooking) (sid : Nat) :
    countWaitlist (l ++ [b]) sid =
      countWaitlist l sid +
        (if b.session_id == sid && b.status == BookingStatus.waitlist then 1 else 0) := by
  simp only [countWaitlist, List.filter_append, List.length_append]
  congr 1
  by_cases h : (b.session_id == sid && b.status == BookingStatus.waitlist) = true
  · simp [List.filter, h]
  · simp only [Bool.not_eq_true] at h
    simp [List.filter, h]

/-- Evaluation of `book_class` on a member with no existing booking row:
the read succeeds, the status is derived from the current remaining count,
and a fresh row is appended. -/
lemma book_class_fresh (db : GDB) (sid mid : Nat) (s : GSession) (c : GClass)
    (hs : db.sessions.find? (fun x => x.id == sid) = some s)
    (hc : db.classes.find? (fun x => x.id == s.class_id) = some c)
    (hm : db.bookings.find? (bookingMatches sid mid) = none) :
    book_class db sid mid =
      .ok ({ booking_id := db.next_booking_id,
             status := if 0 < c.capacity - (confirmedCount db sid : Int) then
                         BookingStatus.confirmed else BookingStatus.waitlist,
             title := c.title, date := s.date, start_time := s.start_time,
             end_time := s.end_time, coach := c.coach, session_id := sid, member_id := mid },
           { db with
              bookings := db.bookings ++
                [⟨db.next_booking_id, sid, mid,
                  if 0 < c.capacity - (confirmedCount db sid : Int) then
                    BookingStatus.confirmed else BookingStatus.waitlist⟩],
              next_booking_id := db.next_booking_id + 1 }) := by
  unfold book_class book_read book_write
  simp only [hs, hc, hm]

/-- Invariant of a run of fresh bookings: with `j` existing rows for the
session, of which `min j cap` are confirmed and the rest waitlisted, booking
a list of fresh, pairwise-distinct members extends the counts in the same
shape. -/
lemma bookAll_inv (sid cap : Nat) (ms : List Nat) :
    ∀ (db : GDB) (s : GSession) (c : GClass) (j : Nat),
      db.sessions.find? (fun x => x.id == sid) = some s →
      db.classes.find? (fun x => x.id == s.class_id) = some c →
      c.capacity = (cap : Int) →
      ms.Nodup →
      (∀ m ∈ ms, db.bookings.find? (bookingMatches sid m) = none) →
      countSession db.bookings sid = j →
      countConfirmed db.bookings sid = min j cap →
      countWaitlist db.bookings sid = j - min j cap →
      countSession (bookAll db sid ms).bookings sid = j + ms.length ∧
      countConfirmed (bookAll db sid ms).bookings sid = min (j + ms.length) cap ∧
      countWaitlist (bookAll db sid ms).bookings sid = (j + ms.length) - min (j + ms.length) cap := by
  induction ms with
  | nil =>
    intro db s c j _ _ _ _ _ h1 h2 h3
    simpa [bookAll] using ⟨h1, h2, h3⟩
  | cons m rest ih =>
    intro db s c j hs hc hcap hnd hfresh h1 h2 h3
    have hm : db.bookings.find? (bookingMatches sid m) = none :=
      hfresh m (List.mem_cons_self m rest)
    have hfree := book_class_fresh db sid m s c hs hc hm
    have hbs : bookStep sid db m =
        { db with
            bookings := db.bookings ++
              [⟨db.next_booking_id, sid, m,
                if 0 < c.capacity - (confirmedCount db sid : Int) then
                  BookingStatus.confirmed else BookingStatus.waitlist⟩],
            next_booking_id := db.next_booking_id + 1 } := by
      simp [bookStep, hfree]
    have hccj : confirmedCount db sid = min j cap := h2
    have hnd' : rest.Nodup := (List.nodup_cons.mp hnd).2
    have hmn : m ∉ rest := (List.nodup_cons.mp hnd).1
    have hfresh' : ∀ (nb : GBooking), nb.member_id = m → ∀ m' ∈ rest,
        (db.bookings ++ [nb]).find? (bookingMatches sid m') = none := by
      intro nb hnb m' hm'
      rw [find?_append_none _ _ (hfresh m' (List.mem_cons_of_mem _ hm'))]
      have hne : m ≠ m' := fun h => hmn (h ▸ hm')
      have hne' : (m == m') = false := beq_eq_false_iff_ne.mpr hne
      simp [List.find?, bookingMatches, hnb, hne']
    by_cases hj : j < cap
    · have hst : (if 0 < c.capacity - (confirmedCount db sid : Int) then
            BookingStatus.confirmed else BookingStatus.waitlist) = BookingStatus.confirmed := by
        rw [hccj, hcap, if_pos (by omega)]
      rw [hst] at hbs
      have key := ih
        { db with
            bookings := db.bookings ++ [⟨db.next_booking_id, sid, m, BookingStatus.confirmed⟩],
            next_booking_id := db.next_booking_id + 1 } s c (j + 1) hs hc hcap hnd'
        (hfresh' _ rfl)
        (by simp [countSession_snoc, h1])
        (by simp only [countConfirmed_snoc, h2]; simp; omega)
        (by simp only [countWaitlist_snoc, h3]; simp; omega)
      simp only [bookAll, List.foldl_cons, hbs] at key ⊢
      obtain ⟨i1, i2, i3⟩ := key
      refine ⟨?_, ?_, ?_⟩ <;> simp only [List.length_cons]
      · rw [i1]; omega
      · rw [i2]; omega
      · rw [i3]; omega
    · have hst : (if 0 < c.capacity - (confirmedCount db sid : Int) then
            BookingStatus.confirmed else BookingStatus.waitlist) = BookingStatus.waitlist := by
        rw [hccj, hcap, if_neg (by omega)]
      rw [hst] at hbs
      have key := ih
        { db with
            bookings := db.bookings ++ [⟨db.next_booking_id, sid, m, BookingStatus.waitlist⟩],
            next_booking_id := db.next_booking_id + 1 } s c (j + 1) hs hc hcap hnd'
        (hfresh' _ rfl)
        (by simp [countSession_snoc, h1])
        (by simp only [countConfirmed_snoc, h2]; simp; omega)
        (by simp only [countWaitlist_snoc, h3]; simp; omega)
      simp only [bookAll, List.foldl_cons, hbs] at key ⊢
      obtain ⟨i1, i2, i3⟩ := key
      refine ⟨?_, ?_, ?_⟩ <;> simp only [List.length_cons]
      · rw [i1]; omega
      · rw [i2]; omega
      · rw [i3]; omega

/-- Claim C1: for a session of capacity `cap` with no prior bookings, after a
sequence of `book_class` calls by pairwise-distinct members `ms`, exactly
`min ms.length cap` bookings are confirmed, every remaining booking of the
session is waitlisted (session row count equals the number of callers, the
rest being waitlist rows), and the computed remaining-seat count
`capacity − confirmedCount` is non-negative after every prefix of the
sequence. -/
theorem book_capacity_invariant (db : GDB) (sid : Nat) (ms : List Nat)
    (s : GSession) (c : GClass) (cap : Nat)
    (hs : db.sessions.find? (fun x => x.id == sid) = some s)
    (hc : db.classes.find? (fun x => x.id == s.class_id) = some c)
    (hcap : c.capacity = (cap : Int))
    (hnd : ms.Nodup)
    (hempty : db.bookings.filter (fun b => b.session_id == sid) = []) :
    confirmedCount (bookAll db sid ms) sid = min ms.length cap ∧
    countWaitlist (bookAll db sid ms).bookings sid = ms.length - min ms.length cap ∧
    countSession (bookAll db sid ms).bookings sid = ms.length ∧
    ∀ n, 0 ≤ c.capacity - (confirmedCount (bookAll db sid (ms.take n)) sid : Int) := by
  have hb : ∀ b ∈ db.bookings, ¬(b.session_id == sid) = true :=
    List.filter_eq_nil_iff.mp hempty
  have hfresh : ∀ m ∈ ms, db.bookings.find? (bookingMatches sid m) = none := by
    intro m _
    apply List.find?_eq_none.mpr
    intro b hbm
    simp only [bookingMatches, Bool.and_eq_true, not_and]
    intro h1 _
    exact hb b hbm h1
  have hS0 : countSession db.bookings sid = 0 := by
    unfold countSession
    rw [List.length_eq_zero, hempty]
  have hC0 : countConfirmed db.bookings sid = 0 := by
    unfold countConfirmed
    rw [List.length_eq_zero]
    apply List.filter_eq_nil_iff.mpr
    intro b hbm
    simp only [Bool.and_eq_true, not_and]
    intro h1 _
    exact hb b hbm h1
  have hW0 : countWaitlist db.bookings sid = 0 := by
    unfold countWaitlist
    rw [List.length_eq_zero]
    apply List.filter_eq_nil_iff.mpr
    intro b hbm
    simp only [Bool.and_eq_true, not_and]
    intro h1 _
    exact hb b hbm h1
  have main := bookAll_inv sid cap ms db s c 0 hs hc hcap hnd hfresh hS0
    (by rw [hC0]; omega) (by rw [hW0]; omega)
  refine ⟨?_, ?_, ?_, ?_⟩
  · have := main.2.1
    unfold confirmedCount
    rw [this]; omega
  · have := main.2.2
    rw [this]; omega
  · have := main.1
    rw [this]; omega
  · intro n
    have hfresh' : ∀ m ∈ ms.take n, db.bookings.find? (bookingMatches sid m) = none :=
      fun m hm' => hfresh m (List.take_subset n ms hm')
    have hnd' : (ms.take n).Nodup := (List.take_sublist n ms).nodup hnd
    have pre := bookAll_inv sid cap (ms.take n) db s c 0 hs hc hcap hnd' hfresh' hS0
      (by rw [hC0]; omega) (by rw [hW0]; omega)
    have hcc := pre.2.1
    unfold confirmedCount
    rw [hcc, hcap]
    have : min (0 + (ms.take n).length) cap ≤ cap := by omega
    omega

/-- Concrete instance for Claim C1: a capacity-2 class, one session, three
distinct members booking in sequence — two confirmed, one waitlisted, seats
never oversold. -/
theorem book_capacity_invariant_witness :
    confirmedCount (bookAll ⟨[⟨1, "Yoga", some "Mara", 2⟩],
        [⟨1, 1, ⟨2026, 10, 12⟩, 1050, 1100⟩], [], 1⟩ 1 [10, 20, 30]) 1 = min 3 2 ∧
    countWaitlist (bookAll ⟨[⟨1, "Yoga", some "Mara", 2⟩],
        [⟨1, 1, ⟨2026, 10, 12⟩, 1050, 1100⟩], [], 1⟩ 1 [10, 20, 30]).bookings 1 = 3 - min 3 2 ∧
    countSession (bookAll ⟨[⟨1, "Yoga", some "Mara", 2⟩],
        [⟨1, 1, ⟨2026, 10, 12⟩, 1050, 1100⟩], [], 1⟩ 1 [10, 20, 30]).bookings 1 = 3 ∧
    ∀ n, 0 ≤ (2 : Int) - (confirmedCount (bookAll ⟨[⟨1, "Yoga", some "Mara", 2⟩],
        [⟨1, 1, ⟨2026, 10, 12⟩, 1050, 1100⟩], [], 1⟩ 1 ([10, 20, 30].take n)) 1 : Int) := by
  have h := book_capacity_invariant ⟨[⟨1, "Yoga", some "Mara", 2⟩],
      [⟨1, 1, ⟨2026, 10, 12⟩, 1050, 1100⟩], [], 1⟩ 1 [10, 20, 30]
      ⟨1, 1, ⟨2026, 10, 12⟩, 1050, 1100⟩ ⟨1, "Yoga", some "Mara", 2⟩ 2
      (by decide) (by decide) (by decide) (by decide) (by decide)
  simpa using h

/-- Evaluation of `book_class` on a member with an existing booking row: the
update arm of the `ON CONFLICT` upsert fires, the existing row keeps its id,
and the status is overwritten with the freshly re-derived one. -/
lemma book_class_existing (db : GDB) (sid mid : Nat) (s : GSession) (c : GClass) (b : GBooking)
    (hs : db.sessions.find? (fun x => x.id == sid) = some s)
    (hc : db.classes.find? (fun x => x.id == s.class_id) = some c)
    (hm : db.bookings.find? (bookingMatches sid mid) = some b) :
    book_class db sid mid =
      .ok ({ booking_id := b.id,
             status := if 0 < c.capacity - (confirmedCount db sid : Int) then
                         BookingStatus.confirmed else BookingStatus.waitlist,
             title := c.title, date := s.date, start_time := s.start_time,
             end_time := s.end_time, coach := c.coach, session_id := sid, member_id := mid },
           { db with
              bookings := db.bookings.map
                (fun b0 => if bookingMatches sid mid b0 then
                    { b0 with
                        status := if 0 < c.capacity - (confirmedCount db sid : Int) then
                          BookingStatus.confirmed else BookingStatus.waitlist }
                  else b0) }) := by
  unfold book_class book_read book_write
  simp only [hs, hc, hm]

/-- Capacity-1 session with no bookings, the boundary state for the
concurrency and idempotence analyses. -/
def dbOne : GDB :=
  ⟨[⟨1, "Hyrox", some "Ken", 1⟩], [⟨1, 1, ⟨2026, 10, 12⟩, 1170, 1220⟩], [], 1⟩

/-- The database after the unserialized interleaving read A, read B, write A,
write B of two `book_class` calls for members 10 and 20 on `dbOne`.  Each
write carries the status its caller derived from its own read (both reads see
the same initial state, so both derive `confirmed`). -/
def dbRaceFinal : GDB :=
  (book_write ((book_write dbOne 1 10 BookingStatus.confirmed).2) 1 20
    BookingStatus.confirmed).2

/-- Claim C2, evaluated at the failing schedule: `book_class` issues its
capacity SELECT (`book_read`) and its booking upsert (`book_write`) as two
separate statements with no per-session lock, `SELECT ... FOR UPDATE`, or
serializable isolation, so the interleaving in which both concurrent callers
read before either writes is permitted.  Both reads of the capacity-1 session
return `remaining = 1`, the status rule turns `remaining = 1` into
`confirmed` for both, and after both writes the session holds two confirmed
bookings — exceeding its capacity of 1, which the claim says can never
happen. -/
theorem book_race_oversells :
    book_read dbOne 1 =
      some (⟨1, 1, ⟨2026, 10, 12⟩, 1170, 1220⟩, ⟨1, "Hyrox", some "Ken", 1⟩, 1) ∧
    (if 0 < (1 : Int) then BookingStatus.confirmed else BookingStatus.waitlist) =
      BookingStatus.confirmed ∧
    confirmedCount dbRaceFinal 1 = 2 ∧
    ¬((confirmedCount dbRaceFinal 1 : Int) ≤ (1 : Int)) := by
  refine ⟨by decide, by decide, by decide, by decide⟩

/-- The database after member 10's first `book_class` call on `dbOne`. -/
def dbOneAfter : GDB :=
  match book_class dbOne 1 10 with
  | .ok (_, d) => d
  | .error _ => dbOne

/-- Status component of a `book_class` result. -/
def bcStatus (r : Except BookErr (BookingResult × GDB)) : Option BookingStatus :=
  match r with
  | .ok (b, _) => some b.status
  | .error _ => none

/-- Booking-id component of a `book_class` result. -/
def bcId (r : Except BookErr (BookingResult × GDB)) : Option Nat :=
  match r with
  | .ok (b, _) => some b.booking_id
  | .error _ => none

/-- Claim C3, refuted at a concrete input: on the capacity-1 session of
`dbOne`, member 10's first call returns `confirmed`, but the repeated call
re-derives the status from a remaining count that includes the member's own
confirmed booking (`remaining = 1 − 1 = 0`) and returns — and stores —
`waitlist`.  The booking id is stable (both calls return id 1) and no second
row is created, but the second call's status differs from the first's. -/
theorem book_twice_status_changes :
    bcStatus (book_class dbOne 1 10) = some BookingStatus.confirmed ∧
    bcStatus (book_class dbOneAfter 1 10) = some BookingStatus.waitlist ∧
    bcId (book_class dbOne 1 10) = some 1 ∧
    bcId (book_class dbOneAfter 1 10) = some 1 ∧
    dbOneAfter.bookings.length = 1 ∧
    some BookingStatus.waitlist ≠ some BookingStatus.confirmed := by
  refine ⟨by decide, by decide, by decide, by decide, by decide, by decide⟩

/-- Claim C3 as amended: calling `book_class` twice with the same session and
member yields a single booking row with a stable id — the second call returns
the same id and creates no new row — but the second call re-derives the
status from the then-current remaining count, which includes the member's own
booking, so the two statuses agree exactly when the remaining count at the
first call was not 1 (when the member took the last seat, the second call
downgrades the booking to waitlist). -/
theorem book_twice_amended (db : GDB) (sid mid : Nat) (s : GSession) (c : GClass)
    (hs : db.sessions.find? (fun x => x.id == sid) = some s)
    (hc : db.classes.find? (fun x => x.id == s.class_id) = some c)
    (hm : db.bookings.find? (bookingMatches sid mid) = none) :
    ∃ r1 db1 r2 db2,
      book_class db sid mid = .ok (r1, db1) ∧
      book_class db1 sid mid = .ok (r2, db2) ∧
      r2.booking_id = r1.booking_id ∧
      db2.bookings.length = db1.bookings.length ∧
      (r2.status = r1.status ↔ c.capacity - (confirmedCount db sid : Int) ≠ 1) := by
  have h1 := book_class_fresh db sid mid s c hs hc hm
  by_cases hrem : 0 < c.capacity - (confirmedCount db sid : Int)
  · rw [if_pos hrem] at h1
    have hfind1 : (db.bookings ++
        [(⟨db.next_booking_id, sid, mid, BookingStatus.confirmed⟩ : GBooking)]).find?
          (bookingMatches sid mid) =
        some (⟨db.next_booking_id, sid, mid, BookingStatus.confirmed⟩ : GBooking) := by
      rw [find?_append_none _ _ hm]
      simp [List.find?, bookingMatches]
    have h2 := book_class_existing
      { db with
          bookings := db.bookings ++ [⟨db.next_booking_id, sid, mid, BookingStatus.confirmed⟩],
          next_booking_id := db.next_booking_id + 1 } sid mid s c _ hs hc hfind1
    have hcc1 : confirmedCount
        { db with
            bookings := db.bookings ++ [⟨db.next_booking_id, sid, mid, BookingStatus.confirmed⟩],
            next_booking_id := db.next_booking_id + 1 } sid = confirmedCount db sid + 1 := by
      unfold confirmedCount
      rw [countConfirmed_snoc]
      simp
    rw [hcc1] at h2
    refine ⟨_, _, _, _, h1, h2, rfl, by simp, ?_⟩
    show (if 0 < c.capacity - ((confirmedCount db sid + 1 : Nat) : Int) then
        BookingStatus.confirmed else BookingStatus.waitlist) = BookingStatus.confirmed ↔
      c.capacity - (confirmedCount db sid : Int) ≠ 1
    by_cases hrem2 : 0 < c.capacity - ((confirmedCount db sid + 1 : Nat) : Int)
    · rw [if_pos hrem2]
      constructor
      · intro _
        push_cast at hrem2 ⊢
        omega
      · intro _
        rfl
    · rw [if_neg hrem2]
      constructor
      · intro hcontra
        exact absurd hcontra (by simp)
      · intro hne
        exfalso
        push_cast at hrem2 hrem hne
        omega
  · rw [if_neg hrem] at h1
    have hfind1 : (db.bookings ++
        [(⟨db.next_booking_id, sid, mid, BookingStatus.waitlist⟩ : GBooking)]).find?
          (bookingMatches sid mid) =
        some (⟨db.next_booking_id, sid, mid, BookingStatus.waitlist⟩ : GBooking) := by
      rw [find?_append_none _ _ hm]
      simp [List.find?, bookingMatches]
    have h2 := book_class_existing
      { db with
          bookings := db.bookings ++ [⟨db.next_booking_id, sid, mid, BookingStatus.waitlist⟩],
          next_booking_id := db.next_booking_id + 1 } sid mid s c _ hs hc hfind1
    have hcc1 : confirmedCount
        { db with
            bookings := db.bookings ++ [⟨db.next_booking_id, sid, mid, BookingStatus.waitlist⟩],
            next_booking_id := db.next_booking_id + 1 } sid = confirmedCount db sid := by
      unfold confirmedCount
      rw [countConfirmed_snoc]
      simp
    rw [hcc1] at h2
    refine ⟨_, _, _, _, h1, h2, rfl, by simp, ?_⟩
    show (if 0 < c.capacity - (confirmedCount db sid : Int) then
        BookingStatus.confirmed else BookingStatus.waitlist) = BookingStatus.waitlist ↔
      c.capacity - (confirmedCount db sid : Int) ≠ 1
    rw [if_neg hrem]
    constructor
    · intro _
      omega
    · intro _
      rfl

/-- A capacity-2 session with no bookings. -/
def dbTwo : GDB :=
  ⟨[⟨1, "Yoga", some "Mara", 2⟩], [⟨1, 1, ⟨2026, 10, 12⟩, 1110, 1160⟩], [], 1⟩

/-- Concrete instance for the amended Claim C3: on the capacity-2 session of
`dbTwo` the second call returns the same id, adds no row, and (remaining was
2 ≠ 1) the same status. -/
theorem book_twice_amended_witness :
    ∃ r1 db1 r2 db2,
      book_class dbTwo 1 10 = .ok (r1, db1) ∧
      book_class db1 1 10 = .ok (r2, db2) ∧
      r2.booking_id = r1.booking_id ∧
      db2.bookings.length = db1.bookings.length ∧
      (r2.status = r1.status ↔ (2 : Int) - (confirmedCount dbTwo 1 : Int) ≠ 1) := by
  exact book_twice_amended dbTwo 1 10
    ⟨1, 1, ⟨2026, 10, 12⟩, 1110, 1160⟩ ⟨1, "Yoga", some "Mara", 2⟩
    (by decide) (by decide) (by decide)

/-! ### Helper lemmas about the agent loop -/

/-- If every model call succeeds, the loop always reaches an `.ok` reply. -/
lemma agent_loop_ok (oracle : Oracle) (uid : String) (ts : Nat)
    (h : ∀ ms, ∃ out, oracle ms = .ok out) :
    ∀ (n : Nat) (msgs : List CtxMsg) (mem : MemSt),
      ∃ r mem', agent_loop oracle uid ts n msgs mem = (.ok r, mem') := by
  intro n
  induction n with
  | zero =>
    intro msgs mem
    exact ⟨fallback_reply, _, rfl⟩
  | succ k ih =>
    intro msgs mem
    obtain ⟨out, hok⟩ := h msgs
    simp only [agent_loop, hok]
    cases hcalls : out.tool_calls with
    | nil =>
      exact ⟨_, _, rfl⟩
    | cons tc rest =>
      exact ih _ _

/-- If the model always requests a capability, every round takes the tool
branch (which never touches the store) and the loop ends in the fallback. -/
lemma agent_loop_all_tools (oracle : Oracle) (uid : String) (ts : Nat)
    (h : ∀ ms, ∃ out, oracle ms = .ok out ∧ out.tool_calls ≠ []) :
    ∀ (n : Nat) (msgs : List CtxMsg) (mem : MemSt),
      agent_loop oracle uid ts n msgs mem =
        (.ok fallback_reply, append_history mem uid "assistant" fallback_reply ts 10) := by
  intro n
  induction n with
  | zero =>
    intro msgs mem
    rfl
  | succ k ih =>
    intro msgs mem
    obtain ⟨out, hok, hne⟩ := h msgs
    simp only [agent_loop, hok]
    cases hcalls : out.tool_calls with
    | nil => exact absurd hcalls hne
    | cons tc rest =>
      exact ih _ _

/-- Membership in a Python tail slice implies membership in the list. -/
lemma mem_of_pyTail {α : Type _} {a : α} {k : Nat} {l : List α} (h : a ∈ pyTail k l) :
    a ∈ l := by
  unfold pyTail at h
  split at h
  · exact h
  · exact List.mem_of_mem_drop h

/-- The history-roles invariant: every stored entry is a user or assistant
entry. -/
def rolesOk (mem : MemSt) : Prop :=
  ∀ u : String, ∀ e ∈ mem.hist u, e.role = "user" ∨ e.role = "assistant"

/-- `append_history` with a user or assistant role preserves the invariant. -/
lemma rolesOk_append (mem : MemSt) (uid role content : String) (ts k : Nat)
    (hrole : role = "user" ∨ role = "assistant") (h : rolesOk mem) :
    rolesOk (append_history mem uid role content ts k) := by
  intro u e he
  simp only [append_history] at he
  by_cases hu : u = uid
  · rw [if_pos hu] at he
    rcases List.mem_append.mp (mem_of_pyTail he) with hmem | hmem
    · exact h uid e hmem
    · simp only [List.mem_singleton] at hmem
      subst hmem
      exact hrole
  · rw [if_neg hu] at he
    exact h u e he

/-- Every store state the loop can produce keeps the invariant: the loop only
ever appends `"assistant"` entries. -/
lemma agent_loop_rolesOk (oracle : Oracle) (uid : String) (ts : Nat) :
    ∀ (n : Nat) (msgs : List CtxMsg) (mem : MemSt), rolesOk mem →
      rolesOk (agent_loop oracle uid ts n msgs mem).2 := by
  intro n
  induction n with
  | zero =>
    intro msgs mem h
    exact rolesOk_append mem uid "assistant" fallback_reply ts 10 (Or.inr rfl) h
  | succ k ih =>
    intro msgs mem h
    cases hor : oracle msgs with
    | error e =>
      have hred : agent_loop oracle uid ts (k + 1) msgs mem = (.error e, mem) := by
        simp only [agent_loop, hor]
      rw [hred]
      exact h
    | ok out =>
      cases hcalls : out.tool_calls with
      | nil =>
        have hred : agent_loop oracle uid ts (k + 1) msgs mem =
            (.ok (match out.content with | some sVal => sVal | none => ""),
             append_history mem uid "assistant"
               (match out.content with | some sVal => sVal | none => "") ts 10) := by
          simp only [agent_loop, hor, hcalls]
        rw [hred]
        exact rolesOk_append mem uid "assistant" _ ts 10 (Or.inr rfl) h
      | cons tc rest =>
        have hred : agent_loop oracle uid ts (k + 1) msgs mem =
            agent_loop oracle uid ts k
              (msgs ++ [CtxMsg.assistantCall out,
                CtxMsg.toolReply tc.id tc.name (exec_tool tc.name tc.args)]) mem := by
          simp only [agent_loop, hor, hcalls]
        rw [hred]
        exact ih _ _ h

/-! ### Claims C4, C5, C10 -/

/-- A model call that fails (non-2xx status or undecodable body). -/
def failOracle : Oracle := fun _ => .error .upstream

/-- A model that immediately answers with empty content and no tool call. -/
def emptyReplyOracle : Oracle := fun _ => .ok ⟨[], some ""⟩

/-- Claim C4, refuted at concrete inputs: `run_agent` has no exception
handling around the model call, so a failing call propagates the exception to
the caller (first conjunct: the result is the error, not a reply), and when
the model's final message has empty content, `final = out.get("content") or
""` makes `run_agent` return the empty string (second conjunct). -/
theorem run_agent_raises_or_empty :
    (run_agent failOracle "u1" "hallo" memEmpty 0).1 = .error .upstream ∧
    (run_agent emptyReplyOracle "u1" "hallo" memEmpty 0).1 = .ok "" := by
  constructor
  · rfl
  · rfl

/-- Claim C4 as amended: `run_agent` always terminates (the loop is bounded
by three rounds), and whenever every model call succeeds it returns a reply
to the caller without raising — but that reply may be the empty string, and a
failing model call is not caught. -/
theorem run_agent_total_when_model_ok (oracle : Oracle) (uid txt : String)
    (mem : MemSt) (ts : Nat) (h : ∀ ms, ∃ out, oracle ms = .ok out) :
    ∃ r mem', run_agent oracle uid txt mem ts = (.ok r, mem') := by
  unfold run_agent
  exact agent_loop_ok oracle uid ts h 3 _ _

/-- Concrete instance for the amended Claim C4: a model that always answers
with text makes `run_agent` return a reply. -/
theorem run_agent_total_when_model_ok_witness :
    ∃ r mem',
      run_agent (fun _ => .ok ⟨[], some "Hallo!"⟩) "u1" "hi" memEmpty 0 = (.ok r, mem') :=
  run_agent_total_when_model_ok (fun _ => .ok ⟨[], some "Hallo!"⟩) "u1" "hi" memEmpty 0
    (fun _ => ⟨⟨[], some "Hallo!"⟩, rfl⟩)

/-- Claim C5: with a model stub that always requests a capability, the loop
executes its three rounds, terminates, and returns the fixed fallback
message, which is a fixed non-empty string; the store receives exactly the
user entry and the fallback assistant entry. -/
theorem loop_exhaustion_fallback (oracle : Oracle) (uid txt : String)
    (mem : MemSt) (ts : Nat)
    (h : ∀ ms, ∃ out, oracle ms = .ok out ∧ out.tool_calls ≠ []) :
    run_agent oracle uid txt mem ts =
      (.ok fallback_reply,
       append_history (append_history mem uid "user" txt ts 10) uid "assistant"
         fallback_reply ts 10) ∧
    fallback_reply ≠ "" := by
  constructor
  · unfold run_agent
    exact agent_loop_all_tools oracle uid ts h 3 _ _
  · decide

/-- Concrete instance for Claim C5: a stub that always asks for
`get_schedule` drives the loop to the fallback reply. -/
theorem loop_exhaustion_fallback_witness :
    run_agent (fun _ => .ok ⟨[⟨"c1", "get_schedule", []⟩], none⟩) "u1" "hi" memEmpty 0 =
      (.ok fallback_reply,
       append_history (append_history memEmpty "u1" "user" "hi" 0 10) "u1" "assistant"
         fallback_reply 0 10) ∧
    fallback_reply ≠ "" :=
  loop_exhaustion_fallback (fun _ => .ok ⟨[⟨"c1", "get_schedule", []⟩], none⟩) "u1" "hi"
    memEmpty 0 (fun _ => ⟨⟨[⟨"c1", "get_schedule", []⟩], none⟩, rfl, by simp⟩)

/-- Claim C10: the persisted history only ever holds `"user"` and
`"assistant"` entries — `run_agent` appends the inbound message as `"user"`
and replies as `"assistant"`, and tool results are appended only to the
in-flight context, never to the store; so the invariant is preserved by a
whole `run_agent` invocation regardless of model behaviour. -/
theorem history_roles_invariant (oracle : Oracle) (uid txt : String) (mem : MemSt)
    (ts : Nat) (h : rolesOk mem) :
    rolesOk (run_agent oracle uid txt mem ts).2 := by
  unfold run_agent
  exact agent_loop_rolesOk oracle uid ts 3 _ _
    (rolesOk_append mem uid "user" txt ts 10 (Or.inl rfl) h)

/-- Concrete instance for Claim C10: starting from the empty store, a run
with a tool-then-text model keeps only user/assistant roles. -/
theorem history_roles_invariant_witness :
    rolesOk (run_agent (fun _ => .ok ⟨[], some "Hallo!"⟩) "u1" "hi" memEmpty 0).2 :=
  history_roles_invariant (fun _ => .ok ⟨[], some "Hallo!"⟩) "u1" "hi" memEmpty 0
    (fun u e he => by simp [memEmpty] at he)

/-! ### Claim C6 -/

/-- The assembled context never contains a tool-role message: it is built
from the system prompt, an optional profile system message, and history
entries mapped onto user/assistant roles only. -/
lemma buildCtx_no_tool (mem : MemSt) (uid : String) :
    (buildCtx mem uid).any (fun m => ctxRole m == CtxRole.tool) = false := by
  rw [List.any_eq_false]
  intro m hm
  unfold buildCtx at hm
  simp only [List.mem_append] at hm
  rcases hm with (hm | hm) | hm
  · simp only [List.mem_singleton] at hm
    subst hm
    simp [ctxRole]
  · rcases hp : mem.profile uid with _ | p <;> rw [hp] at hm
    · simp at hm
    · simp only [List.mem_singleton] at hm
      subst hm
      simp [ctxRole]
  · rcases List.mem_map.mp hm with ⟨e, _, rfl⟩
    by_cases hrole : e.role = "user"
    · simp [ctxRole, hrole]
    · simp [ctxRole, hrole]

/-- A model stub that requests the capability `name` with `args` on the first
round (no tool message in the context yet) and answers with `content` once a
tool result is present. -/
def oneToolThen (name : String) (args : ToolArgs) (content : String) : Oracle :=
  fun ms =>
    if ms.any (fun m => ctxRole m == CtxRole.tool) then .ok ⟨[], some content⟩
    else .ok ⟨[⟨"call_1", name, args⟩], none⟩

/-- Claim C6, refuted at a concrete input: when the model requests the
unregistered capability name `"frobnicate"`, the loop's dispatch
(`TOOLS.get(tool_name, {}).get("fn")` with default `tool_result = {}`)
produces the plain empty object, not an `UnknownCapability` error payload —
no error value of any kind is constructed. -/
theorem unknown_capability_not_reported :
    exec_tool "frobnicate" [] = ToolResult.emptyObj ∧
    ToolResult.emptyObj ≠ ToolResult.err CapErr.unknownCapability := by
  constructor
  · rfl
  · intro hcontra
    exact ToolResult.noConfusion hcontra

/-- Claim C6 as amended: a request for an unregistered capability name does
not produce an `UnknownCapability` error — the handler lookup fails and an
empty result object is folded back into the model context as the tool result
— and the loop continues to a graceful reply rather than raising to the
caller. -/
theorem unknown_capability_soft (name : String) (args : ToolArgs)
    (content uid txt : String) (mem : MemSt) (ts : Nat)
    (hn : TOOLS_get name = none) :
    exec_tool name args = ToolResult.emptyObj ∧
    run_agent (oneToolThen name args content) uid txt mem ts =
      (.ok content,
       append_history (append_history mem uid "user" txt ts 10) uid "assistant"
         content ts 10) := by
  have hexec : exec_tool name args = ToolResult.emptyObj := by
    unfold exec_tool
    rw [hn]
  refine ⟨hexec, ?_⟩
  unfold run_agent
  have hstep1 : oneToolThen name args content
      (buildCtx (append_history mem uid "user" txt ts 10) uid) =
      .ok ⟨[⟨"call_1", name, args⟩], none⟩ := by
    unfold oneToolThen
    rw [buildCtx_no_tool]
    rfl
  have hred1 : agent_loop (oneToolThen name args content) uid ts 3
      (buildCtx (append_history mem uid "user" txt ts 10) uid)
      (append_history mem uid "user" txt ts 10) =
      agent_loop (oneToolThen name args content) uid ts 2
        (buildCtx (append_history mem uid "user" txt ts 10) uid ++
          [CtxMsg.assistantCall ⟨[⟨"call_1", name, args⟩], none⟩,
           CtxMsg.toolReply "call_1" name (exec_tool name args)])
        (append_history mem uid "user" txt ts 10) := by
    simp only [agent_loop, hstep1]
  rw [hred1, hexec]
  have hstep2 : oneToolThen name args content
      (buildCtx (append_history mem uid "user" txt ts 10) uid ++
        [CtxMsg.assistantCall ⟨[⟨"call_1", name, args⟩], none⟩,
         CtxMsg.toolReply "call_1" name ToolResult.emptyObj]) =
      .ok ⟨[], some content⟩ := by
    unfold oneToolThen
    rw [if_pos]
    rw [List.any_append]
    simp [ctxRole]
  simp only [agent_loop, hstep2]

/-- Concrete instance for the amended Claim C6: requesting `"frobnicate"`
folds back the empty object and the loop still produces the next round's
reply. -/
theorem unknown_capability_soft_witness :
    exec_tool "frobnicate" [] = ToolResult.emptyObj ∧
    run_agent (oneToolThen "frobnicate" [] "Alles klar!") "u1" "hi" memEmpty 0 =
      (.ok "Alles klar!",
       append_history (append_history memEmpty "u1" "user" "hi" 0 10) "u1" "assistant"
         "Alles klar!" 0 10) :=
  unknown_capability_soft "frobnicate" [] "Alles klar!" "u1" "hi" memEmpty 0 rfl

/-! ### Claim C7 -/

/-- Retaining the last `k` elements commutes with later appends: truncating,
appending more, and truncating again is the same as truncating the full
concatenation (for `k ≥ 1`, where the slice `[-k:]` really truncates). -/
lemma pyTail_append_pyTail {α : Type _} (k : Nat) (hk : 1 ≤ k) (l l' : List α) :
    pyTail k (pyTail k l ++ l') = pyTail k (l ++ l') := by
  have hk0 : k ≠ 0 := by omega
  unfold pyTail
  simp only [if_neg hk0]
  rw [List.drop_append_eq_append_drop, List.drop_append_eq_append_drop, List.drop_drop]
  congr 1
  · congr 1
    simp only [List.length_append, List.length_drop]
    omega
  · congr 1
    simp only [List.length_append, List.length_drop]
    omega

/-- Folding `append_history` over a list of (role, content, ts) triples with
the code's bound of 10. -/
def appendAll (mem : MemSt) (uid : String) (es : List (String × String × Nat)) : MemSt :=
  es.foldl (fun m e => append_history m uid e.1 e.2.1 e.2.2 10) mem

/-- The stored history after a fold of appends is the 10-truncated
concatenation, provided the starting history is already truncated. -/
lemma appendAll_hist (uid : String) (es : List (String × String × Nat)) :
    ∀ mem : MemSt, pyTail 10 (mem.hist uid) = mem.hist uid →
      (appendAll mem uid es).hist uid =
        pyTail 10 (mem.hist uid ++ es.map (fun e => (⟨e.1, e.2.1, e.2.2⟩ : HEntry))) := by
  induction es with
  | nil =>
    intro mem hinv
    simpa [appendAll] using hinv.symm
  | cons e es ih =>
    intro mem hinv
    have hstep : (append_history mem uid e.1 e.2.1 e.2.2 10).hist uid =
        pyTail 10 (mem.hist uid ++ [⟨e.1, e.2.1, e.2.2⟩]) := by
      simp [append_history]
    have hinv' : pyTail 10 ((append_history mem uid e.1 e.2.1 e.2.2 10).hist uid) =
        (append_history mem uid e.1 e.2.1 e.2.2 10).hist uid := by
      rw [hstep]
      have hidem := pyTail_append_pyTail 10 (by omega)
        (mem.hist uid ++ [(⟨e.1, e.2.1, e.2.2⟩ : HEntry)]) ([] : List HEntry)
      simpa using hidem
    have hrest := ih (append_history mem uid e.1 e.2.1 e.2.2 10) hinv'
    rw [hstep] at hrest
    have hfold : appendAll mem uid (e :: es) =
        appendAll (append_history mem uid e.1 e.2.1 e.2.2 10) uid es := rfl
    rw [hfold, hrest, pyTail_append_pyTail 10 (by omega)]
    simp

/-- Claim C7: starting from an empty history, after the sequential appends
`es` with the code's bound `keep_last = 10`, `get_history` returns exactly
`min es.length 10` entries, and those entries are precisely the suffix of the
appended sequence (the most recent appends, oldest first; the oldest entries
are the ones dropped). -/
theorem history_bound (uid : String) (es : List (String × String × Nat)) :
    (get_history (appendAll memEmpty uid es) uid).length = min es.length 10 ∧
    get_history (appendAll memEmpty uid es) uid =
      (es.map (fun e => (⟨e.1, e.2.1, e.2.2⟩ : HEntry))).drop (es.length - 10) := by
  have h := appendAll_hist uid es memEmpty (by simp [memEmpty, pyTail])
  unfold get_history
  rw [h]
  simp only [memEmpty, List.nil_append]
  constructor
  · unfold pyTail
    rw [if_neg (by omega)]
    simp only [List.length_drop, List.length_map]
    omega
  · unfold pyTail
    rw [if_neg (by omega)]
    rw [List.length_map]

/-! ### Claim C8 -/

/-- Claim C8: `get_schedule` mutates nothing (the returned state is the input
state), its rows are sorted ascending by start time, every returned row
carries `remaining = capacity − confirmedCount` for its session, a date with
no sessions yields the empty sequence rather than an error, and every session
of the requested date that joins with its class appears in the result. -/
theorem get_schedule_spec (db : GDB) (today : GDate) (when : Option (List Char)) :
    (get_schedule db today when).2 = db ∧
    List.Sorted viewLe (get_schedule db today when).1 ∧
    (∀ v ∈ (get_schedule db today when).1,
      v.remaining = v.capacity - (confirmedCount db v.session_id : Int)) ∧
    ((∀ s ∈ db.sessions, s.date ≠ to_date_from_when today when) →
      (get_schedule db today when).1 = []) ∧
    (∀ s ∈ db.sessions, s.date = to_date_from_when today when →
      ∀ c, db.classes.find? (fun c0 => c0.id == s.class_id) = some c →
        ∃ v ∈ (get_schedule db today when).1, v.session_id = s.id) := by
  refine ⟨rfl, ?_, ?_, ?_, ?_⟩
  · exact List.sorted_insertionSort viewLe _
  · intro v hv
    rw [show (get_schedule db today when).1 =
        List.insertionSort viewLe (scheduleRows db (to_date_from_when today when)) from rfl,
      List.mem_insertionSort] at hv
    unfold scheduleRows at hv
    rcases List.mem_filterMap.mp hv with ⟨s, _, hmap⟩
    rcases Option.map_eq_some'.mp hmap with ⟨c, _, rfl⟩
    rfl
  · intro hnone
    have hfil : db.sessions.filter (fun s => s.date == to_date_from_when today when) = [] := by
      apply List.filter_eq_nil_iff.mpr
      intro s hs
      simp only [beq_iff_eq]
      exact hnone s hs
    show List.insertionSort viewLe (scheduleRows db (to_date_from_when today when)) = []
    unfold scheduleRows
    rw [hfil]
    rfl
  · intro s hsmem hdate c hfind
    refine ⟨mkSessionView db s c, ?_, rfl⟩
    show mkSessionView db s c ∈
      List.insertionSort viewLe (scheduleRows db (to_date_from_when today when))
    rw [List.mem_insertionSort]
    unfold scheduleRows
    apply List.mem_filterMap.mpr
    refine ⟨s, List.mem_filter.mpr ⟨hsmem, by simp [hdate]⟩, ?_⟩
    rw [hfind]
    rfl

/-- Concrete instance for Claim C8: the query leaves the state unchanged, and
an empty database yields the empty schedule. -/
theorem get_schedule_spec_witness :
    (get_schedule dbTwo ⟨2026, 10, 12⟩ none).2 = dbTwo ∧
    (get_schedule ⟨[], [], [], 1⟩ ⟨2026, 10, 12⟩ none).1 = [] := by
  refine ⟨(get_schedule_spec dbTwo ⟨2026, 10, 12⟩ none).1, ?_⟩
  exact (get_schedule_spec ⟨[], [], [], 1⟩ ⟨2026, 10, 12⟩ none).2.2.2.1
    (by intro s hs; simp at hs)

/-! ### Claim C9 -/

/-- Every month of a representable date has at least one day. -/
lemma one_le_daysInMonth (y m : Nat) : 1 ≤ daysInMonth y m := by
  unfold daysInMonth
  split
  · split <;> omega
  · split <;> omega

/-- The Gregorian successor of a representable date is representable. -/
lemma nextDay_valid {d : GDate} (h : d.valid) : (nextDay d).valid := by
  rcases h with ⟨h1, h2, h3, _⟩
  unfold nextDay
  by_cases hlt : d.day < daysInMonth d.year d.month
  · rw [if_pos hlt]
    unfold GDate.valid
    dsimp only
    omega
  · rw [if_neg hlt]
    by_cases hm : d.month < 12
    · rw [if_pos hm]
      unfold GDate.valid
      dsimp only
      exact ⟨by omega, by omega, le_refl 1, one_le_daysInMonth _ _⟩
    · rw [if_neg hm]
      unfold GDate.valid
      dsimp only
      exact ⟨by omega, by omega, le_refl 1, one_le_daysInMonth _ _⟩

/-- A successfully parsed ISO date is representable (the parser checks the
ranges Python's constructor would check). -/
lemma parseISO_valid : ∀ {w : List Char} {d : GDate}, parseISO w = some d → d.valid := by
  intro w d h
  unfold parseISO at h
  split at h
  · simp only [] at h
    split at h
    · split at h
      · rename_i hcond
        cases h
        exact ⟨hcond.2.1, hcond.2.2.1, hcond.2.2.2.1, hcond.2.2.2.2⟩
      · cases h
    · cases h
  · cases h

/-- Claim C9: date resolution is total and safe.  For a representable
`today`, the result is always a representable date (never an exception): a
missing `when` yields today; an input containing `morgen`/`tomorrow` (after
lowercasing) yields today plus one day; otherwise an input containing
`heute`/`today` yields today; otherwise a string parsing as a canonical ISO
date yields that date; and every other input falls back to today — so
`get_schedule` cannot fail on an unparseable `when` argument. -/
theorem date_resolution_total (today : GDate) (when : Option (List Char))
    (hv : today.valid) :
    (to_date_from_when today when).valid ∧
    to_date_from_when today none = today ∧
    (∀ s, when = some s →
      ((hasSub "morgen".toList (lowerStr s) || hasSub "tomorrow".toList (lowerStr s)) = true →
        to_date_from_when today when = nextDay today) ∧
      ((hasSub "morgen".toList (lowerStr s) || hasSub "tomorrow".toList (lowerStr s)) = false →
        (hasSub "heute".toList (lowerStr s) || hasSub "today".toList (lowerStr s)) = true →
        to_date_from_when today when = today) ∧
      ((hasSub "morgen".toList (lowerStr s) || hasSub "tomorrow".toList (lowerStr s)) = false →
        (hasSub "heute".toList (lowerStr s) || hasSub "today".toList (lowerStr s)) = false →
        ∀ d, parseISO (lowerStr s) = some d → to_date_from_when today when = d) ∧
      ((hasSub "morgen".toList (lowerStr s) || hasSub "tomorrow".toList (lowerStr s)) = false →
        (hasSub "heute".toList (lowerStr s) || hasSub "today".toList (lowerStr s)) = false →
        parseISO (lowerStr s) = none → to_date_from_when today when = today)) := by
  refine ⟨?_, rfl, ?_⟩
  · cases when with
    | none => exact hv
    | some s =>
      simp only [to_date_from_when]
      by_cases h1 : (hasSub "morgen".toList (lowerStr s) ||
          hasSub "tomorrow".toList (lowerStr s)) = true
      · rw [if_pos h1]
        exact nextDay_valid hv
      · rw [if_neg h1]
        by_cases h2 : (hasSub "heute".toList (lowerStr s) ||
            hasSub "today".toList (lowerStr s)) = true
        · rw [if_pos h2]
          exact hv
        · rw [if_neg h2]
          cases hp : parseISO (lowerStr s) with
          | none => simp only [hp]; exact hv
          | some d => simp only [hp]; exact parseISO_valid hp
  · intro s hs
    subst hs
    refine ⟨?_, ?_, ?_, ?_⟩
    · intro hkw
      simp only [to_date_from_when, hkw]
      rfl
    · intro hkw1 hkw2
      simp only [to_date_from_when, hkw1, hkw2]
      rfl
    · intro hkw1 hkw2 d hp
      simp only [to_date_from_when, hkw1, hkw2, hp]
      rfl
    · intro hkw1 hkw2 hp
      simp only [to_date_from_when, hkw1, hkw2, hp]
      rfl

/-- Concrete instance for Claim C9: a valid canonical ISO string resolves to
the parsed date, and the result is representable. -/
theorem date_resolution_total_witness :
    GDate.valid (to_date_from_when ⟨2026, 10, 12⟩ (some "2026-12-01".toList)) ∧
    to_date_from_when ⟨2026, 10, 12⟩ (some "2026-12-01".toList) = ⟨2026, 12, 1⟩ := by
  have h := date_resolution_total ⟨2026, 10, 12⟩ (some "2026-12-01".toList) (by decide)
  refine ⟨h.1, ?_⟩
  exact (h.2.2 _ rfl).2.2.1 (by decide) (by decide) ⟨2026, 12, 1⟩ (by decide)
